import Mathlib

/-!
Shallow embedding of the rehttp retry transport (rehttp.go) and proofs of
the specified properties.

Modelling conventions:
- `time.Duration` is int64 nanoseconds, embedded as `Int`.
- A Go `error` value is embedded as `Option GoError`; `none` is a nil error.
  `GoError.temporary` records whether the concrete error type implements the
  `Temporary() bool` method (the `temporaryer` interface) and what it reports.
- A request body (`io.ReadCloser`) is embedded as what fully reading it
  yields: either an I/O error (`Except.error`) or the byte sequence
  (`Except.ok`). `none` is a nil body.
- The wrapped `CancelRoundTripper` and the channels raced in the `select` of
  the retry loop are external collaborators: they are embedded as
  environment functions `results : Nat -> Option Response x Option GoError`
  (outcome of the k-th call to the wrapped RoundTripper) and
  `waits : Nat -> WaitOutcome` (which select case fires at the k-th wait).
- The loop is embedded with fuel; `none` means the fuel ran out before the
  loop returned.
-/

namespace Rehttp

/-- time.Duration: int64 nanoseconds. -/
abbrev Duration := Int

/-- A non-nil Go error value. `temporary = some b` models a concrete error
type that implements the `temporaryer` interface and whose `Temporary()`
returns `b`; `temporary = none` models an error that does not implement it. -/
structure GoError where
  msg : String
  temporary : Option Bool
deriving DecidableEq, Repr

/-- An http.Response, restricted to the fields rehttp.go reads. -/
structure Response where
  StatusCode : Int
deriving DecidableEq, Repr

/-- An http.Request, restricted to the fields rehttp.go reads: the method
string and the body. The body is modelled by what draining it yields. -/
structure Request where
  Method : String
  Body : Option (Except GoError (List Nat))
deriving Repr

/-- Attempt holds the data for a RoundTrip attempt (rehttp.go lines 76-93).
Index is a Go int, hence `Int`. -/
structure Attempt where
  Index : Int
  Request : Request
  Response : Option Response
  Error : Option GoError
deriving Repr

/-- retryFn: the signature for functions that implement retry strategies. -/
abbrev retryFn := Attempt → Bool × Duration

/-- DelayFn: returns the delay to apply before the next retry. -/
abbrev DelayFn := Attempt → Duration

/-- ShouldRetryFn: returns whether a retry should be done for the request. -/
abbrev ShouldRetryFn := Attempt → Bool

/-- toRetryFn combines shouldRetry and delay into a retryFn
(rehttp.go lines 126-134): `retry := shouldRetry(attempt); if !retry
{ return false, 0 }; return true, delay(attempt)`. -/
def toRetryFn (shouldRetry : ShouldRetryFn) (delay : DelayFn) : retryFn :=
  fun attempt =>
    let retry := shouldRetry attempt
    if !retry then (false, 0)
    else (true, delay attempt)

/-- RetryAny: true as soon as one of retryFns returns true; false for an
empty list (rehttp.go lines 138-147). -/
def RetryAny (retryFns : List ShouldRetryFn) : ShouldRetryFn :=
  fun attempt => retryFns.any (fun fn => fn attempt)

/-- RetryAll: true only if every one of retryFns returns true; true for an
empty list (rehttp.go lines 151-160). -/
def RetryAll (retryFns : List ShouldRetryFn) : ShouldRetryFn :=
  fun attempt => retryFns.all (fun fn => fn attempt)

/-- RetryTemporaryErr (rehttp.go lines 166-176): index below maxRetries and
the error implements Temporary() and reports true. -/
def RetryTemporaryErr (maxRetries : Int) : ShouldRetryFn :=
  fun attempt =>
    if attempt.Index ≥ maxRetries then false
    else
      match attempt.Error with
      | some err =>
        match err.temporary with
        | some b => b
        | none => false
      | none => false

/-- RetryStatus500 (rehttp.go lines 180-189): index below maxRetries and a
response is present with a status code in [500, 600). -/
def RetryStatus500 (maxRetries : Int) : ShouldRetryFn :=
  fun attempt =>
    if attempt.Index ≥ maxRetries then false
    else
      match attempt.Response with
      | some res => decide (res.StatusCode ≥ 500) && decide (res.StatusCode < 600)
      | none => false

/-- Models strings.ToUpper for the ASCII strings used as HTTP methods
(Char.toUpper uppercases exactly the ASCII letters a-z). -/
def goToUpper (s : String) : String := s.map Char.toUpper

/-- RetryHTTPMethods (rehttp.go lines 196-213). The Go function first runs
`for i, m := range methods { methods[i] = strings.ToUpper(m) }`, mutating the
caller-supplied slice in place, then returns a closure over that slice. The
mutation is embedded by explicit state passing: the first component of the
result is the caller-visible state of the `methods` slice after the call. -/
def RetryHTTPMethods (maxRetries : Int) (methods : List String) :
    List String × ShouldRetryFn :=
  let methods := methods.map goToUpper
  (methods,
    fun attempt =>
      if attempt.Index ≥ maxRetries then false
      else
        let curMeth := goToUpper attempt.Request.Method
        methods.any (fun m => curMeth == m))

/-- ConstDelay (rehttp.go lines 216-220): always the same delay. -/
def ConstDelay (delay : Duration) : DelayFn :=
  fun _ => delay

/-- Modelled from the spec: `LinearDelay(base)` is absent from rehttp.go; the
repository only has its test (TestLinearDelay in rehttp_test.go, which expects
delays base, 2*base, 3*base, ... at indices 0, 1, 2, ...). The spec defines it
as `base * (index + 1)`. -/
def LinearDelay (base : Duration) : DelayFn :=
  fun attempt => base * (attempt.Index + 1)

/-- For an int64-range magnitude `x ≥ 2^53`, the exponent of the spacing of
the float64 grid around x, i.e. `log2 x - 52`, written as a comparison chain
so that it evaluates by kernel reduction (magnitudes of int64 values never
exceed 2^63). -/
def floatGridShift (x : Nat) : Nat :=
  if x < 2 ^ 54 then 1 else if x < 2 ^ 55 then 2 else if x < 2 ^ 56 then 3
  else if x < 2 ^ 57 then 4 else if x < 2 ^ 58 then 5 else if x < 2 ^ 59 then 6
  else if x < 2 ^ 60 then 7 else if x < 2 ^ 61 then 8 else if x < 2 ^ 62 then 9
  else if x < 2 ^ 63 then 10 else 11

/-- Rounds a natural number to the nearest float64-representable integer
(round to nearest, ties to mantissa-even), modelling the Go conversion
`float64(x)` for int64 values: exact below 2^53, otherwise rounded to the
grid of spacing 2^(log2 x - 52). -/
def floatRoundNat (x : Nat) : Nat :=
  if x < 2 ^ 53 then x
  else
    let s := floatGridShift x
    let g := 2 ^ s
    let q := x / g
    let r := x % g
    let half := 2 ^ (s - 1)
    if r < half then q * g
    else if half < r then (q + 1) * g
    else (if q % 2 = 0 then q else q + 1) * g

/-- float64(x) for an int64 x: round to nearest representable, symmetric in
sign. -/
def floatRound (x : Int) : Int := x.sign * floatRoundNat x.natAbs

/-- The value Go computes as `math.Min(float64(max), float64(base)*exp)` with
`exp = math.Pow(2, float64(index))`, for a nonnegative attempt index:
float64(base) rounds once, the multiplication by a power of two is exact
(overflow past the float64 range only makes the operand larger than
float64(max), which leaves the min unchanged, so the exact integer product is
a faithful stand-in). -/
def expDelayBound (base mx : Int) (index : Nat) : Int :=
  min (floatRound mx) (floatRound base * 2 ^ index)

/-- ExponentialDelay (rehttp.go lines 227-235) applied to an attempt with the
given index, with the jitter source made explicit: `r` is the entropy drawn by
`PRNG.Int63n(n)`, whose possible return values are exactly `r % n` for
`r : Nat` when `0 < n < 2^63`. `none` models a panic: `rand.Int63n` panics for
an argument `n ≤ 0`, and an argument outside int64 (the float min converts to
a value ≥ 2^63) overflows the int64 conversion, which on common platforms
yields a negative value and hence also the Int63n panic. -/
def ExponentialDelay (base mx : Int) (index : Nat) (r : Nat) : Option Duration :=
  let n := expDelayBound base mx index
  if n ≤ 0 ∨ 2 ^ 63 ≤ n then none
  else some ((r : Int) % n)

/-- Which case of the `select` at the bottom of the retry loop
(rehttp.go lines 330-339) fires for a given wait. -/
inductive WaitOutcome where
  /-- case `<-time.After(delay)`: the delay elapsed. -/
  | timer
  /-- case `<-req.Cancel`: the request was canceled by the caller. -/
  | reqCancel
  /-- case `<-ch`: the request was canceled by a call to CancelRequest. -/
  | chCancel
deriving DecidableEq, Repr

/-- The error `errors.New("net/http: request canceled")` returned on either
cancellation path; `errors.New` yields an error without a Temporary method. -/
def requestCanceledErr : GoError := ⟨"net/http: request canceled", none⟩

/-- The observable outcome of a terminated RoundTrip call, instrumented for
verification: `calls` counts the invocations of the wrapped RoundTripper, and
`drained` lists the attempt indices whose response body the transport itself
drained and closed before retrying. -/
structure RoundTripResult where
  response : Option Response
  error : Option GoError
  calls : Nat
  drained : List Nat
deriving DecidableEq, Repr

/-- Transport (rehttp.go lines 239-260). The wrapped CancelRoundTripper and
the reqCh registry are external collaborators, modelled by the environment
arguments of RoundTrip; the retained configuration is the
PreventRetryWithBody flag and the retry function. -/
structure Transport where
  PreventRetryWithBody : Bool
  retry : retryFn

/-- The `for` loop of RoundTrip (rehttp.go lines 298-340), with fuel.
`attempt` is the loop counter (index of the current attempt, and of the
current call to the wrapped RoundTripper). Notes on the embedding:
- the computed delay of `t.retry` only feeds `time.After(delay)`, which is
  not observable here, so only the Bool component drives the control flow;
- `br.Seek(0, 0)` on a bytes.Reader cannot fail (only negative offsets
  error), so the `serr` branch of the source is dead code, and reinstalling
  the body view over the same buffered bytes does not change the request
  model;
- draining and closing the disposed response body (rehttp.go lines 325-328)
  is recorded in the `drained` log. -/
def roundTripLoop (t : Transport) (results : Nat → Option Response × Option GoError)
    (waits : Nat → WaitOutcome) (req : Request) (preventRetry : Bool)
    (attempt : Nat) (drained : List Nat) : Nat → Option RoundTripResult
  | 0 => none
  | fuel + 1 =>
    let res := (results attempt).1
    let err := (results attempt).2
    if preventRetry then some ⟨res, err, attempt + 1, drained⟩
    else if !(t.retry ⟨(attempt : Int), req, res, err⟩).1 then
      some ⟨res, err, attempt + 1, drained⟩
    else
      let drained' := if res.isSome then drained ++ [attempt] else drained
      match waits attempt with
      | WaitOutcome.timer =>
          roundTripLoop t results waits req preventRetry (attempt + 1) drained' fuel
      | WaitOutcome.reqCancel => some ⟨none, some requestCanceledErr, attempt + 1, drained'⟩
      | WaitOutcome.chCancel => some ⟨none, some requestCanceledErr, attempt + 1, drained'⟩

/-- RoundTrip (rehttp.go lines 265-341). The registry bookkeeping around the
call (reqCh insert and deferred delete) has no observable effect on the
returned value and is omitted; buffering the body (lines 284-296) either
fails, returning the copy error with a nil response before any attempt, or
replaces the body with a replayable view over the same bytes. -/
def RoundTrip (t : Transport) (results : Nat → Option Response × Option GoError)
    (waits : Nat → WaitOutcome) (req : Request) (fuel : Nat) : Option RoundTripResult :=
  let preventRetry := req.Body.isSome && t.PreventRetryWithBody
  if req.Body.isSome && !preventRetry then
    match req.Body with
    | some (Except.error e) => some ⟨none, some e, 0, []⟩
    | _ => roundTripLoop t results waits req preventRetry 0 [] fuel
  else
    roundTripLoop t results waits req preventRetry 0 [] fuel

/-! ## Helper lemmas -/

theorem floatRoundNat_eq_self (x : Nat) (h : x < 2 ^ 53) : floatRoundNat x = x := by
  simp only [floatRoundNat]
  rw [if_pos h]

theorem floatRound_eq_self (x : Int) (h : x.natAbs < 2 ^ 53) : floatRound x = x := by
  rw [floatRound, floatRoundNat_eq_self _ h, Int.sign_mul_natAbs]

/-- When the body is not one whose draining fails and buffering is not
bypassed by an error, RoundTrip is the bare retry loop. The Bool hypothesis
fixes the value of preventRetry computed at the top of RoundTrip. -/
theorem roundTrip_eq_loop (t : Transport)
    (results : Nat → Option Response × Option GoError) (waits : Nat → WaitOutcome)
    (req : Request) (fuel : Nat)
    (hbody : ∀ e, req.Body ≠ some (Except.error e))
    (hprev : (req.Body.isSome && t.PreventRetryWithBody) = false) :
    RoundTrip t results waits req fuel =
      roundTripLoop t results waits req false 0 [] fuel := by
  cases hb : req.Body with
  | none => simp [RoundTrip, hb]
  | some b =>
    cases b with
    | error e => exact absurd hb (hbody e)
    | ok bytes =>
      have hp : t.PreventRetryWithBody = false := by simpa [hb] using hprev
      simp [RoundTrip, hb, hp]

/-- Reaching the wait after retrying at every attempt from `a` to `a + j`
and being canceled at the `a + j`-th wait returns the cancellation error with
no response and no further call to the wrapped RoundTripper. -/
theorem roundTripLoop_cancel (t : Transport)
    (results : Nat → Option Response × Option GoError) (waits : Nat → WaitOutcome)
    (req : Request) (j : Nat) :
    ∀ (a fuel : Nat) (drained : List Nat),
      (∀ k, k ≤ j →
        (t.retry ⟨((a + k : Nat) : Int), req,
          (results (a + k)).1, (results (a + k)).2⟩).1 = true) →
      (∀ k, k < j → waits (a + k) = WaitOutcome.timer) →
      waits (a + j) ≠ WaitOutcome.timer →
      j < fuel →
      ∃ ds, roundTripLoop t results waits req false a drained fuel =
        some ⟨none, some requestCanceledErr, a + j + 1, ds⟩ := by
  induction j with
  | zero =>
    intro a fuel drained hretry htimer hcancel hfuel
    obtain ⟨f, rfl⟩ : ∃ f, fuel = f + 1 := ⟨fuel - 1, by omega⟩
    have hr := hretry 0 (Nat.le_refl 0)
    simp only [Nat.add_zero] at hr hcancel ⊢
    simp [roundTripLoop, hr]
    cases hwa : waits a with
    | timer => exact absurd hwa hcancel
    | reqCancel => exact ⟨_, rfl⟩
    | chCancel => exact ⟨_, rfl⟩
  | succ j ih =>
    intro a fuel drained hretry htimer hcancel hfuel
    obtain ⟨f, rfl⟩ : ∃ f, fuel = f + 1 := ⟨fuel - 1, by omega⟩
    have hr := hretry 0 (Nat.zero_le _)
    simp only [Nat.add_zero] at hr
    have hw0 : waits a = WaitOutcome.timer := by
      simpa using htimer 0 (Nat.succ_pos j)
    have hretry' : ∀ k, k ≤ j →
        (t.retry ⟨((a + 1 + k : Nat) : Int), req,
          (results (a + 1 + k)).1, (results (a + 1 + k)).2⟩).1 = true := by
      intro k hk
      have h1 : a + 1 + k = a + (k + 1) := by omega
      rw [h1]; exact hretry (k + 1) (by omega)
    have htimer' : ∀ k, k < j → waits (a + 1 + k) = WaitOutcome.timer := by
      intro k hk
      have h1 : a + 1 + k = a + (k + 1) := by omega
      rw [h1]; exact htimer (k + 1) (by omega)
    have hcancel' : waits (a + 1 + j) ≠ WaitOutcome.timer := by
      have h1 : a + 1 + j = a + (j + 1) := by omega
      rw [h1]; exact hcancel
    obtain ⟨ds, hds⟩ := ih (a + 1) f
      (if (results a).1.isSome then drained ++ [a] else drained)
      hretry' htimer' hcancel' (by omega)
    have h2 : a + 1 + j + 1 = a + (j + 1) + 1 := by omega
    rw [h2] at hds
    refine ⟨ds, ?_⟩
    simp [roundTripLoop, hr, hw0]
    exact hds

/-- Reaching attempt `a + j` after retrying at every earlier attempt and
deciding not to retry there returns that attempt and does not drain any
response at or beyond index `a + j`. -/
theorem roundTripLoop_no_retry (t : Transport)
    (results : Nat → Option Response × Option GoError) (waits : Nat → WaitOutcome)
    (req : Request) (j : Nat) :
    ∀ (a fuel : Nat) (drained : List Nat),
      (∀ k, k < j →
        (t.retry ⟨((a + k : Nat) : Int), req,
          (results (a + k)).1, (results (a + k)).2⟩).1 = true) →
      (t.retry ⟨((a + j : Nat) : Int), req,
        (results (a + j)).1, (results (a + j)).2⟩).1 = false →
      (∀ k, k < j → waits (a + k) = WaitOutcome.timer) →
      (∀ x, x ∈ drained → x < a) →
      j < fuel →
      ∃ ds, roundTripLoop t results waits req false a drained fuel =
        some ⟨(results (a + j)).1, (results (a + j)).2, a + j + 1, ds⟩ ∧
        ∀ x, x ∈ ds → x < a + j := by
  induction j with
  | zero =>
    intro a fuel drained hretry hstop htimer hdr hfuel
    obtain ⟨f, rfl⟩ : ∃ f, fuel = f + 1 := ⟨fuel - 1, by omega⟩
    simp only [Nat.add_zero] at hstop ⊢
    refine ⟨drained, ?_, hdr⟩
    simp [roundTripLoop, hstop]
  | succ j ih =>
    intro a fuel drained hretry hstop htimer hdr hfuel
    obtain ⟨f, rfl⟩ : ∃ f, fuel = f + 1 := ⟨fuel - 1, by omega⟩
    have hr := hretry 0 (Nat.succ_pos _)
    simp only [Nat.add_zero] at hr
    have hw0 : waits a = WaitOutcome.timer := by
      simpa using htimer 0 (Nat.succ_pos j)
    have hretry' : ∀ k, k < j →
        (t.retry ⟨((a + 1 + k : Nat) : Int), req,
          (results (a + 1 + k)).1, (results (a + 1 + k)).2⟩).1 = true := by
      intro k hk
      have h1 : a + 1 + k = a + (k + 1) := by omega
      rw [h1]; exact hretry (k + 1) (by omega)
    have hstop' : (t.retry ⟨((a + 1 + j : Nat) : Int), req,
        (results (a + 1 + j)).1, (results (a + 1 + j)).2⟩).1 = false := by
      have h1 : a + 1 + j = a + (j + 1) := by omega
      rw [h1]; exact hstop
    have htimer' : ∀ k, k < j → waits (a + 1 + k) = WaitOutcome.timer := by
      intro k hk
      have h1 : a + 1 + k = a + (k + 1) := by omega
      rw [h1]; exact htimer (k + 1) (by omega)
    have hdr' : ∀ x,
        x ∈ (if (results a).1.isSome then drained ++ [a] else drained) →
        x < a + 1 := by
      intro x hx
      by_cases hres : (results a).1.isSome
      · rw [if_pos hres] at hx
        rcases List.mem_append.mp hx with h | h
        · exact Nat.lt_succ_of_lt (hdr x h)
        · simp at h; omega
      · rw [if_neg hres] at hx
        exact Nat.lt_succ_of_lt (hdr x hx)
    obtain ⟨ds, hds, hlt⟩ := ih (a + 1) f
      (if (results a).1.isSome then drained ++ [a] else drained)
      hretry' hstop' htimer' hdr' (by omega)
    have h1 : a + 1 + j = a + (j + 1) := by omega
    rw [h1] at hds hlt
    refine ⟨ds, ?_, hlt⟩
    simp [roundTripLoop, hr, hw0]
    exact hds

/-! ## Claim theorems -/

/-- C1: the claim says that whenever min(max, base*2^index) evaluates to 0 or
negative, the delay function returned by ExponentialDelay returns 0 and never
fails or panics. The code instead passes that value straight to
rand.Int63n, which panics for a non-positive argument: at base = 0,
max = 1000000000 (one second) and index 0 the computed bound is 0 and the
call panics (modelled as `none`) instead of returning a 0 delay. -/
theorem exponentialDelay_zero_base_panics :
    ExponentialDelay 0 1000000000 0 0 = none := by decide

/-- C8 counterexample: at base = 2^53+3 ns, max = 2^60 ns, index 0, the
conversion float64(base) rounds up to 2^53+4 (ties to even), so Int63n is
called with bound 2^53+4 and can return 2^53+3 — which is not below
min(max, base*2^0) = 2^53+3. The claimed interval [0, min(max, base*2^i))
is therefore escaped. -/
theorem exponentialDelay_escapes_claimed_range :
    ExponentialDelay (2 ^ 53 + 3) (2 ^ 60) 0 (2 ^ 53 + 3) = some (2 ^ 53 + 3) ∧
    ¬ ((2 ^ 53 + 3 : Int) < min (2 ^ 60) ((2 ^ 53 + 3) * 2 ^ 0)) := by decide

/-- C8 (amended): for base and max below 2^53 (hence exactly representable in
float64) and any index i with min(max, base*2^i) positive, every value the
delay function of ExponentialDelay(base, max) can return at index i lies in
the half-open interval [0, min(max, base*2^i)). -/
theorem exponentialDelay_range (base mx : Int) (i r : Nat)
    (hb : base < 2 ^ 53) (hm : mx < 2 ^ 53)
    (hpos : 0 < min mx (base * 2 ^ i)) :
    ∃ v, ExponentialDelay base mx i r = some v ∧
      0 ≤ v ∧ v < min mx (base * 2 ^ i) := by
  have h2i : (0 : Int) < 2 ^ i := pow_pos (by norm_num) i
  have hmx0 : 0 < mx := lt_of_lt_of_le hpos (min_le_left _ _)
  have hbm : 0 < base * 2 ^ i := lt_of_lt_of_le hpos (min_le_right _ _)
  have hb0 : 0 < base := by nlinarith
  have hfb : floatRound base = base := floatRound_eq_self _ (by omega)
  have hfm : floatRound mx = mx := floatRound_eq_self _ (by omega)
  have hn : expDelayBound base mx i = min mx (base * 2 ^ i) := by
    rw [expDelayBound, hfb, hfm]
  have hlt : min mx (base * 2 ^ i) < 2 ^ 63 :=
    lt_of_le_of_lt (min_le_left _ _) (lt_trans hm (by norm_num))
  refine ⟨(r : Int) % min mx (base * 2 ^ i), ?_,
    Int.emod_nonneg _ (ne_of_gt hpos), Int.emod_lt_of_pos _ hpos⟩
  simp only [ExponentialDelay, hn]
  rw [if_neg]
  push_neg
  exact ⟨hpos, hlt⟩

/-- Witness for C8 (amended) at base = 1 s, max = 30 s, index 1, entropy 5. -/
theorem exponentialDelay_range_witness :
    (1000000000 : Int) < 2 ^ 53 ∧ (30000000000 : Int) < 2 ^ 53 ∧
    (0 : Int) < min 30000000000 (1000000000 * 2 ^ 1) ∧
    ∃ v, ExponentialDelay 1000000000 30000000000 1 5 = some v ∧
      0 ≤ v ∧ v < min 30000000000 (1000000000 * 2 ^ 1) :=
  ⟨by decide, by decide, by decide,
    exponentialDelay_range 1000000000 30000000000 1 5 (by decide) (by decide)
      (by decide)⟩

/-- C2: for every base duration, LinearDelay(base) applied to attempts with
indices 0 through 4 returns exactly base*1 through base*5, whatever the rest
of the attempt record holds (spec-modelled: LinearDelay is not in
rehttp.go, only its test is in the repository). -/
theorem linearDelay_values (base : Duration) (req : Request)
    (res : Option Response) (err : Option GoError) :
    LinearDelay base ⟨0, req, res, err⟩ = base * 1 ∧
    LinearDelay base ⟨1, req, res, err⟩ = base * 2 ∧
    LinearDelay base ⟨2, req, res, err⟩ = base * 3 ∧
    LinearDelay base ⟨3, req, res, err⟩ = base * 4 ∧
    LinearDelay base ⟨4, req, res, err⟩ = base * 5 := by
  norm_num [LinearDelay]

/-- C7: whenever the decision function returns false for an attempt, the
combined retry function built by toRetryFn returns (false, 0), and the delay
function is never invoked for that attempt — expressed by the result being
independent of which delay function was supplied. -/
theorem toRetryFn_short_circuit (shouldRetry : ShouldRetryFn)
    (delay delay' : DelayFn) (attempt : Attempt)
    (h : shouldRetry attempt = false) :
    toRetryFn shouldRetry delay attempt = (false, 0) ∧
    toRetryFn shouldRetry delay attempt = toRetryFn shouldRetry delay' attempt := by
  simp [toRetryFn, h]

/-- Witness for C7 with a decision function that always refuses and two
distinct delay functions. -/
theorem toRetryFn_short_circuit_witness :
    (fun _ : Attempt => false) ⟨0, ⟨"GET", none⟩, none, none⟩ = false ∧
    (toRetryFn (fun _ => false) (fun _ => 7) ⟨0, ⟨"GET", none⟩, none, none⟩ =
        (false, 0) ∧
      toRetryFn (fun _ => false) (fun _ => 7) ⟨0, ⟨"GET", none⟩, none, none⟩ =
        toRetryFn (fun _ => false) (fun _ => 9) ⟨0, ⟨"GET", none⟩, none, none⟩) :=
  ⟨rfl, toRetryFn_short_circuit (fun _ => false) (fun _ => 7) (fun _ => 9)
    ⟨0, ⟨"GET", none⟩, none, none⟩ rfl⟩

/-- C9: the predicate built by RetryHTTPMethods equals the case-insensitive
membership test — both the request method and every listed method are
compared through goToUpper — conjoined with the attempt index being below
maxRetries; in particular it is false whenever the index is ≥ maxRetries,
regardless of any method match. -/
theorem retryHTTPMethods_case_insensitive (maxRetries : Int)
    (methods : List String) (attempt : Attempt) :
    (RetryHTTPMethods maxRetries methods).2 attempt =
      (decide (attempt.Index < maxRetries) &&
        methods.any
          (fun m => goToUpper attempt.Request.Method == goToUpper m)) := by
  by_cases h : attempt.Index ≥ maxRetries
  · simp [RetryHTTPMethods, if_pos h, not_lt.mpr h]
  · simp only [RetryHTTPMethods, if_neg h, decide_eq_true (not_le.mp h),
      Bool.true_and, List.any_map]
    rfl

/-- C10: the methods slice passed by the caller to RetryHTTPMethods is
mutated in place at construction time: afterwards (first component of the
embedding, which carries the post-call state of the slice) it holds exactly
the upper-cased forms of the original elements, position by position. -/
theorem retryHTTPMethods_upcases_methods_slice (maxRetries : Int)
    (methods : List String) (i : Nat) :
    ((RetryHTTPMethods maxRetries methods).1)[i]? = methods[i]?.map goToUpper := by
  simp [RetryHTTPMethods]

/-- C3: when the request has a body and PreventRetryWithBody is set,
RoundTrip returns the response and error of the first attempt with exactly
one call to the wrapped RoundTripper and no retry, whatever the retry
decision function of the transport would say (the theorem holds for every
`t.retry`). -/
theorem roundTrip_prevent_retry_with_body (t : Transport)
    (results : Nat → Option Response × Option GoError) (waits : Nat → WaitOutcome)
    (req : Request) (fuel : Nat)
    (hbody : req.Body.isSome = true) (hprev : t.PreventRetryWithBody = true)
    (hfuel : 0 < fuel) :
    RoundTrip t results waits req fuel =
      some ⟨(results 0).1, (results 0).2, 1, []⟩ := by
  obtain ⟨f, rfl⟩ : ∃ f, fuel = f + 1 := ⟨fuel - 1, by omega⟩
  simp [RoundTrip, hbody, hprev, roundTripLoop]

/-- Witness for C3: a bodied request on a transport with
PreventRetryWithBody set and a decision function that would always retry
still returns the first attempt directly. -/
theorem roundTrip_prevent_retry_with_body_witness :
    RoundTrip ⟨true, fun _ => (true, 5)⟩ (fun _ => (some ⟨503⟩, none))
      (fun _ => WaitOutcome.timer) ⟨"GET", some (Except.ok [1, 2])⟩ 3 =
      some ⟨some ⟨503⟩, none, 1, []⟩ :=
  roundTrip_prevent_retry_with_body ⟨true, fun _ => (true, 5)⟩
    (fun _ => (some ⟨503⟩, none)) (fun _ => WaitOutcome.timer)
    ⟨"GET", some (Except.ok [1, 2])⟩ 3 rfl rfl (by decide)

/-- C4: if the retry loop decides to retry at every attempt up to j, waits
through the first j delays, and the cancellation signal (either the
caller-level req.Cancel or the explicit CancelRequest channel) fires at the
j-th wait, RoundTrip returns a nil response with the cancellation error and
the wrapped RoundTripper is called exactly j+1 times — attempt j+1 is never
issued. -/
theorem roundTrip_cancel_while_waiting (t : Transport)
    (results : Nat → Option Response × Option GoError) (waits : Nat → WaitOutcome)
    (req : Request) (j fuel : Nat)
    (hbody : ∀ e, req.Body ≠ some (Except.error e))
    (hprev : (req.Body.isSome && t.PreventRetryWithBody) = false)
    (hretry : ∀ k, k ≤ j →
      (t.retry ⟨(k : Int), req, (results k).1, (results k).2⟩).1 = true)
    (htimer : ∀ k, k < j → waits k = WaitOutcome.timer)
    (hcancel : waits j ≠ WaitOutcome.timer)
    (hfuel : j < fuel) :
    ∃ ds, RoundTrip t results waits req fuel =
      some ⟨none, some requestCanceledErr, j + 1, ds⟩ := by
  rw [roundTrip_eq_loop t results waits req fuel hbody hprev]
  obtain ⟨ds, hds⟩ := roundTripLoop_cancel t results waits req j 0 fuel []
    (by intro k hk; simpa using hretry k hk)
    (by intro k hk; simpa using htimer k hk)
    (by simpa using hcancel) hfuel
  exact ⟨ds, by simpa using hds⟩

/-- Witness for C4: a request canceled by the caller while waiting between
attempt 1 and attempt 2 (the wait after the attempt of index 1) returns the
cancellation error and makes exactly two calls. -/
theorem roundTrip_cancel_while_waiting_witness :
    ∃ ds, RoundTrip ⟨false, fun _ => (true, 5)⟩ (fun _ => (some ⟨503⟩, none))
      (fun k => if k = 1 then WaitOutcome.reqCancel else WaitOutcome.timer)
      ⟨"GET", none⟩ 5 =
      some ⟨none, some requestCanceledErr, 2, ds⟩ :=
  roundTrip_cancel_while_waiting ⟨false, fun _ => (true, 5)⟩
    (fun _ => (some ⟨503⟩, none))
    (fun k => if k = 1 then WaitOutcome.reqCancel else WaitOutcome.timer)
    ⟨"GET", none⟩ 1 5
    (fun e h => Option.noConfusion h) rfl
    (fun k _ => rfl)
    (by intro k hk; have : k = 0 := by omega
        subst this; rfl)
    (by decide) (by decide)

/-- C5: when the request has a body, retries with body are not prevented,
and draining the body into the replay buffer fails with an I/O error,
RoundTrip returns that error with a nil response and the wrapped
RoundTripper is called zero times. -/
theorem roundTrip_body_copy_error (t : Transport)
    (results : Nat → Option Response × Option GoError) (waits : Nat → WaitOutcome)
    (req : Request) (e : GoError) (fuel : Nat)
    (hbody : req.Body = some (Except.error e))
    (hprev : t.PreventRetryWithBody = false) :
    RoundTrip t results waits req fuel = some ⟨none, some e, 0, []⟩ := by
  simp [RoundTrip, hbody, hprev]

/-- Witness for C5: a request whose body read fails returns the read error
with no response and no attempt at all. -/
theorem roundTrip_body_copy_error_witness :
    RoundTrip ⟨false, fun _ => (true, 5)⟩ (fun _ => (some ⟨200⟩, none))
      (fun _ => WaitOutcome.timer)
      ⟨"POST", some (Except.error ⟨"read fail", none⟩)⟩ 5 =
      some ⟨none, some ⟨"read fail", none⟩, 0, []⟩ :=
  roundTrip_body_copy_error ⟨false, fun _ => (true, 5)⟩
    (fun _ => (some ⟨200⟩, none)) (fun _ => WaitOutcome.timer)
    ⟨"POST", some (Except.error ⟨"read fail", none⟩)⟩ ⟨"read fail", none⟩ 5
    rfl rfl

/-- C6: when the retry policy decides not to retry at attempt j (after
retrying and waiting at every earlier attempt), RoundTrip returns the j-th
attempt response and error unchanged, and the transport does not drain or
close the body of that returned response (j is not in the drain log; only
strictly earlier attempts can appear there). -/
theorem roundTrip_no_retry_returns_result (t : Transport)
    (results : Nat → Option Response × Option GoError) (waits : Nat → WaitOutcome)
    (req : Request) (j fuel : Nat)
    (hbody : ∀ e, req.Body ≠ some (Except.error e))
    (hprev : (req.Body.isSome && t.PreventRetryWithBody) = false)
    (hretry : ∀ k, k < j →
      (t.retry ⟨(k : Int), req, (results k).1, (results k).2⟩).1 = true)
    (hstop : (t.retry ⟨(j : Int), req, (results j).1, (results j).2⟩).1 = false)
    (htimer : ∀ k, k < j → waits k = WaitOutcome.timer)
    (hfuel : j < fuel) :
    ∃ ds, RoundTrip t results waits req fuel =
      some ⟨(results j).1, (results j).2, j + 1, ds⟩ ∧ j ∉ ds := by
  rw [roundTrip_eq_loop t results waits req fuel hbody hprev]
  obtain ⟨ds, hds, hlt⟩ := roundTripLoop_no_retry t results waits req j 0 fuel []
    (by intro k hk; simpa using hretry k hk)
    (by simpa using hstop)
    (by intro k hk; simpa using htimer k hk)
    (by intro x hx; cases hx)
    hfuel
  refine ⟨ds, by simpa using hds, fun hj => ?_⟩
  have := hlt j hj
  omega

/-- Witness for C6: a first attempt whose decision is no-retry is returned
as is, with one call and an empty drain log. -/
theorem roundTrip_no_retry_returns_result_witness :
    ∃ ds, RoundTrip ⟨false, fun _ => (false, 0)⟩ (fun _ => (some ⟨503⟩, none))
      (fun _ => WaitOutcome.timer) ⟨"GET", none⟩ 2 =
      some ⟨some ⟨503⟩, none, 1, ds⟩ ∧ 0 ∉ ds :=
  roundTrip_no_retry_returns_result ⟨false, fun _ => (false, 0)⟩
    (fun _ => (some ⟨503⟩, none)) (fun _ => WaitOutcome.timer) ⟨"GET", none⟩ 0 2
    (fun e h => Option.noConfusion h) rfl
    (fun k hk => absurd hk (by omega)) rfl
    (fun k hk => absurd hk (by omega)) (by decide)

end Rehttp
